import Mathlib

/-!
# Verification of the client-side download-job controller (`static/app.js`)

This file gives a shallow embedding, in Lean 4, of the logic of the
browser-side controller in `static/app.js`: URL normalization
(`cleanYouTubeUrl`), the preview-skeleton loader, the poll/cancel/reset
state transitions on the single-job state, the progress mapper
(`updateProgress`) and the subscriber-count formatter (`formatSubs`).

JavaScript strings are modelled as `List Char` (wrapped in `String` at
the boundaries), JS numbers as `ℚ` where fractional values matter and as
`Int`/`Nat` where the code only meets integers, and nullable fields as
`Option`.  The browser's `new URL` / `URLSearchParams` built-ins are
modelled by `parseURL` / `searchParamsGet` below, restricted to absolute
`scheme://authority/path?query#fragment` inputs (the only shapes the
claims exercise): host lower-casing, fragment stripping, query splitting
on `&` with first-`=` name/value splits, and percent-plus decoding of
parameter names and values are all modelled as the WHATWG standard
prescribes.
-/

namespace App

/-! ## List/char utilities mirroring the JS string operations -/

/-- Split a character list at the first character satisfying `p`:
returns (longest `p`-free prefix, remainder starting at the first hit). -/
def spanBefore (p : Char → Bool) : List Char → List Char × List Char
  | [] => ([], [])
  | c :: cs =>
    if p c then ([], c :: cs)
    else
      let r := spanBefore p cs
      (c :: r.1, r.2)

/-- JS `String.prototype.split(sep)` for a one-character separator. -/
def splitOnChar (sep : Char) : List Char → List (List Char)
  | [] => [[]]
  | c :: cs =>
    if c = sep then [] :: splitOnChar sep cs
    else
      match splitOnChar sep cs with
      | [] => [[c]]
      | g :: gs => (c :: g) :: gs

theorem spanBefore_all_not {p : Char → Bool} {l : List Char}
    (h : ∀ c ∈ l, p c = false) : spanBefore p l = (l, []) := by
  induction l with
  | nil => rfl
  | cons c cs ih =>
    have hc : p c = false := h c (List.mem_cons_self c cs)
    simp [spanBefore, hc, ih fun d hd => h d (List.mem_cons_of_mem c hd)]

theorem spanBefore_append {p : Char → Bool} {l₁ : List Char}
    (l₂ : List Char) (h : ∀ c ∈ l₁, p c = false) :
    spanBefore p (l₁ ++ l₂) = (l₁ ++ (spanBefore p l₂).1, (spanBefore p l₂).2) := by
  induction l₁ with
  | nil => simp
  | cons c cs ih =>
    have hc : p c = false := h c (List.mem_cons_self c cs)
    simp [spanBefore, hc, ih fun d hd => h d (List.mem_cons_of_mem c hd)]

theorem splitOnChar_all_not {sep : Char} {l : List Char}
    (h : ∀ c ∈ l, c ≠ sep) : splitOnChar sep l = [l] := by
  induction l with
  | nil => rfl
  | cons c cs ih =>
    have hc : c ≠ sep := h c (List.mem_cons_self c cs)
    simp [splitOnChar, hc, ih fun d hd => h d (List.mem_cons_of_mem c hd)]

theorem splitOnChar_append {sep : Char} (l₁ : List Char) {l₂ : List Char} {g : List Char}
    {gs : List (List Char)} (h : ∀ c ∈ l₁, c ≠ sep)
    (h2 : splitOnChar sep l₂ = g :: gs) :
    splitOnChar sep (l₁ ++ l₂) = (l₁ ++ g) :: gs := by
  induction l₁ with
  | nil => simpa using h2
  | cons c cs ih =>
    have hc : c ≠ sep := h c (List.mem_cons_self c cs)
    simp [splitOnChar, hc,
      ih fun d hd => h d (List.mem_cons_of_mem c hd)]

/-! ## Model of the browser URL API (`new URL`, `searchParams.get`) -/

/-- Hex digit value, as in percent-decoding. -/
def hexVal (c : Char) : Option Nat :=
  if 48 ≤ c.toNat && c.toNat ≤ 57 then some (c.toNat - 48)
  else if 97 ≤ c.toNat && c.toNat ≤ 102 then some (c.toNat - 87)
  else if 65 ≤ c.toNat && c.toNat ≤ 70 then some (c.toNat - 55)
  else none

/-- Fuel-indexed worker for `percentDecode`; the fuel only serves to make
the recursion structural and is always at least the list length. -/
def percentDecodeFuel : Nat → List Char → List Char
  | _, [] => []
  | 0, rest => rest
  | Nat.succ fuel, c :: rest =>
    if c == '+' then ' ' :: percentDecodeFuel fuel rest
    else if c == '%' then
      match rest with
      | a :: b :: rest2 =>
        match hexVal a, hexVal b with
        | some ha, some hb => Char.ofNat (16 * ha + hb) :: percentDecodeFuel fuel rest2
        | _, _ => '%' :: percentDecodeFuel fuel rest
      | _ => '%' :: percentDecodeFuel fuel rest
    else c :: percentDecodeFuel fuel rest

/-- `application/x-www-form-urlencoded` decoding used by `URLSearchParams`:
`+` becomes a space, `%XX` with two hex digits becomes the coded character,
a stray `%` is kept literally. -/
def percentDecode (l : List Char) : List Char := percentDecodeFuel l.length l

/-- The components of a parsed URL that `cleanYouTubeUrl` reads. -/
structure ParsedURL where
  hostname : List Char
  pathname : List Char
  query : List Char
deriving DecidableEq

/-- Characters after the last `@` (strips the userinfo from an authority). -/
def afterLastAt (l : List Char) : List Char :=
  (l.reverse.takeWhile (fun c => !(c == '@'))).reverse

/-- ASCII letter, the required first character of a URL scheme. -/
def isSchemeHeadChar (c : Char) : Bool :=
  (65 ≤ c.toNat && c.toNat ≤ 90) || (97 ≤ c.toNat && c.toNat ≤ 122)

/-- Model of the WHATWG `new URL` constructor, restricted to absolute
`scheme://authority/path?query#fragment` inputs: splits off the scheme at
the first `:` (requiring `//` next and a leading letter), takes the
authority up to the first `/`, `?` or `#`, strips userinfo and port from
it, lower-cases the host, takes the path up to `?` or `#` (defaulting to
`/`), the query up to `#`, and drops the fragment.  Anything else is a
parse failure (`new URL` throws). -/
def parseURLChars (cs : List Char) : Option ParsedURL :=
  let sch := spanBefore (fun c => c == ':') cs
  match sch.2 with
  | ':' :: '/' :: '/' :: rest =>
    if !(match sch.1 with | c :: _ => isSchemeHeadChar c | [] => false) then none
    else
      let auth := spanBefore (fun c => c == '/' || c == '?' || c == '#') rest
      let host := (spanBefore (fun c => c == ':') (afterLastAt auth.1)).1
      if host.isEmpty then none
      else
        let pq := spanBefore (fun c => c == '?' || c == '#') auth.2
        let query :=
          match pq.2 with
          | '?' :: r => (spanBefore (fun c => c == '#') r).1
          | _ => []
        some ⟨host.map Char.toLower, (if pq.1.isEmpty then ['/'] else pq.1), query⟩
  | _ => none

/-- Lookup in a split query pair list: split each pair at the first `=`,
percent-decode name and value, return the first value whose name matches. -/
def findParam (name : List Char) : List (List Char) → Option (List Char)
  | [] => none
  | p :: ps =>
    let nv := spanBefore (fun c => c == '=') p
    let v := match nv.2 with
      | [] => []
      | _ :: t => t
    if percentDecode nv.1 = name then some (percentDecode v) else findParam name ps

/-- Model of `URLSearchParams.get`: split the query on `&`, drop empty
pairs, find the first decoded name match. -/
def searchParamsGet (query : List Char) (name : List Char) : Option (List Char) :=
  findParam name ((splitOnChar '&' query).filter (fun p => !p.isEmpty))

/-! ## `cleanYouTubeUrl` (src/static/app.js lines 72-104) -/

/-- Result of `cleanYouTubeUrl`: `{ok:true, url, kind}` or `{ok:false, error}`. -/
inductive CleanResult where
  | ok (url : String) (kind : String)
  | err (msg : String)
deriving DecidableEq

/-- `https://www.youtube.com/watch?v=` -/
def watchBase : List Char := "https://www.youtube.com/watch?v=".data

/-- `https://www.youtube.com/shorts/` -/
def shortsBase : List Char := "https://www.youtube.com/shorts/".data

/-- The host allow-list from the source. -/
def allowedHosts : List (List Char) :=
  ["youtube.com".data, "www.youtube.com".data, "m.youtube.com".data,
   "youtu.be".data, "music.youtube.com".data]

/-- JS `string.includes(needle)` on character lists. -/
def listContainsSub (needle : List Char) : List Char → Bool
  | [] => needle.isEmpty
  | c :: rest => needle.isPrefixOf (c :: rest) || listContainsSub needle rest

/-- Core of `cleanYouTubeUrl`, on character lists.  Mirrors the source
branch for branch: parse; allow-list check on the lower-cased host;
`youtu.be` takes the first path segment after stripping leading slashes;
`/watch` paths require the `v` query parameter; paths containing
`/shorts/` take the segment after `shorts`; the `music.youtube.com`
`/watch` branch of the source is kept (it is shadowed by the generic
`/watch` branch, as in the source); anything else is the generic error. -/
def cleanChars (raw : List Char) : CleanResult :=
  match parseURLChars raw with
  | none => CleanResult.err "Invalid URL."
  | some u =>
    let host := u.hostname.map Char.toLower
    if !(allowedHosts.contains host) then CleanResult.err "Only YouTube URLs are supported."
    else if host = "youtu.be".data then
      let id := (splitOnChar '/' (u.pathname.dropWhile (fun c => c == '/'))).headD []
      if id.isEmpty then CleanResult.err "Invalid youtu.be URL."
      else CleanResult.ok ⟨watchBase ++ id⟩ "video"
    else
      let path := if u.pathname.isEmpty then ['/'] else u.pathname
      if "/watch".data.isPrefixOf path then
        match searchParamsGet u.query "v".data with
        | none => CleanResult.err "Missing video id."
        | some v =>
          if v.isEmpty then CleanResult.err "Missing video id."
          else CleanResult.ok ⟨watchBase ++ v⟩ "video"
      else if listContainsSub "/shorts/".data path then
        let parts := (splitOnChar '/' path).filter (fun p => !p.isEmpty)
        match parts.findIdx? (fun p => p == "shorts".data) with
        | none => CleanResult.err "Invalid shorts URL."
        | some idx =>
          match parts.get? (idx + 1) with
          | none => CleanResult.err "Invalid shorts URL."
          | some pid =>
            if pid.isEmpty then CleanResult.err "Invalid shorts URL."
            else CleanResult.ok ⟨shortsBase ++ pid⟩ "short"
      else if host = "music.youtube.com".data && "/watch".data.isPrefixOf path then
        match searchParamsGet u.query "v".data with
        | none => CleanResult.err "Missing video id."
        | some v =>
          if v.isEmpty then CleanResult.err "Missing video id."
          else CleanResult.ok ⟨watchBase ++ v⟩ "video"
      else CleanResult.err "Only direct YouTube video or shorts URLs are supported."

/-- `cleanYouTubeUrl` on strings. -/
def cleanYouTubeUrl (raw : String) : CleanResult := cleanChars raw.data

example : cleanYouTubeUrl "https://youtu.be/abc123"
    = CleanResult.ok "https://www.youtube.com/watch?v=abc123" "video" := by decide

example : cleanYouTubeUrl "https://www.youtube.com/watch?v=abc123"
    = CleanResult.ok "https://www.youtube.com/watch?v=abc123" "video" := by decide

example : cleanYouTubeUrl "https://www.youtube.com/shorts/xyz789?x=1"
    = CleanResult.ok "https://www.youtube.com/shorts/xyz789" "short" := by decide

example : cleanYouTubeUrl "https://vimeo.com/12345"
    = CleanResult.err "Only YouTube URLs are supported." := by decide

example : cleanYouTubeUrl "https://www.youtube.com/watch?v=a%23b"
    = CleanResult.ok "https://www.youtube.com/watch?v=a#b" "video" := by decide

example : cleanYouTubeUrl "https://www.youtube.com/watch?v=a#b"
    = CleanResult.ok "https://www.youtube.com/watch?v=a" "video" := by decide

example : cleanYouTubeUrl "not a url" = CleanResult.err "Invalid URL." := by decide

/-! ## Generic facts about the parser on id-shaped suffixes -/

/-- Characters a YouTube video/short id is made of: ASCII alphanumerics,
`-` and `_`. -/
def isIdChar (c : Char) : Bool :=
  (48 ≤ c.toNat && c.toNat ≤ 57) || (65 ≤ c.toNat && c.toNat ≤ 90) ||
    (97 ≤ c.toNat && c.toNat ≤ 122) || c == '-' || c == '_'

/-- A list made of id characters. -/
def IdSafe (l : List Char) : Prop := ∀ c ∈ l, isIdChar c = true

instance (l : List Char) : Decidable (IdSafe l) := by
  unfold IdSafe; infer_instance

theorem isIdChar_beq_false {c d : Char} (h : isIdChar c = true)
    (hd : isIdChar d = false) : (c == d) = false := by
  cases heq : c == d with
  | false => rfl
  | true =>
    rw [beq_iff_eq] at heq
    subst heq
    rw [h] at hd
    cases hd

theorem spanBefore_cons_pos {p : Char → Bool} {c : Char} (l : List Char)
    (h : p c = true) : spanBefore p (c :: l) = ([], c :: l) := by
  simp [spanBefore, h]

theorem spanBefore_cons_neg {p : Char → Bool} {c : Char} (l : List Char)
    (h : p c = false) :
    spanBefore p (c :: l) = (c :: (spanBefore p l).1, (spanBefore p l).2) := by
  simp [spanBefore, h]

theorem splitOnChar_cons_neg {sep c : Char} {l : List Char} {g : List Char}
    {gs : List (List Char)} (h : c ≠ sep)
    (h2 : splitOnChar sep l = g :: gs) :
    splitOnChar sep (c :: l) = (c :: g) :: gs := by
  simp [splitOnChar, h, h2]

theorem dropWhile_all_not {p : Char → Bool} {l : List Char}
    (h : ∀ c ∈ l, p c = false) : l.dropWhile p = l := by
  cases l with
  | nil => rfl
  | cons c cs => simp [List.dropWhile, h c (List.mem_cons_self c cs)]

theorem percentDecodeFuel_safe {l : List Char} (h : IdSafe l) :
    ∀ fuel, percentDecodeFuel fuel l = l := by
  induction l with
  | nil => intro fuel; cases fuel <;> rfl
  | cons c cs ih =>
    intro fuel
    cases fuel with
    | zero => rfl
    | succ fuel =>
      have hc : isIdChar c = true := h c (List.mem_cons_self c cs)
      have h1 : (c == '+') = false := isIdChar_beq_false hc (by decide)
      have h2 : (c == '%') = false := isIdChar_beq_false hc (by decide)
      have hcs : IdSafe cs := fun d hd => h d (List.mem_cons_of_mem c hd)
      simp [percentDecodeFuel, h1, h2, ih hcs]

theorem percentDecode_safe {l : List Char} (h : IdSafe l) :
    percentDecode l = l := percentDecodeFuel_safe h _

theorem idSafe_no (X : Char) (hX : isIdChar X = false) {l : List Char}
    (h : IdSafe l) : ∀ c ∈ l, (c == X) = false :=
  fun c hc => isIdChar_beq_false (h c hc) hX

theorem idSafe_ne (X : Char) (hX : isIdChar X = false) {l : List Char}
    (h : IdSafe l) : ∀ c ∈ l, c ≠ X := by
  intro c hc e
  subst e
  rw [h c hc] at hX
  cases hX

theorem ne_nil_of_not_isEmpty {l : List Char} (h : l.isEmpty = false) :
    l ≠ [] := by
  cases l with
  | nil => cases h
  | cons c cs => simp

theorem isEmpty_false_of_ne_nil {l : List Char} (h : l ≠ []) :
    l.isEmpty = false := by
  cases l with
  | nil => exact absurd rfl h
  | cons c cs => rfl

theorem isPre_append (l t : List Char) : l.isPrefixOf (l ++ t) = true := by
  induction l with
  | nil => simp [List.isPrefixOf]
  | cons c cs ih => simp [List.isPrefixOf, ih]

theorem listContainsSub_of_pre {needle l : List Char}
    (h : needle.isPrefixOf l = true) : listContainsSub needle l = true := by
  cases l with
  | nil =>
    cases needle with
    | nil => rfl
    | cons c cs => simp [List.isPrefixOf] at h
  | cons c rest => simp [listContainsSub, h]

theorem idSafe_pq {l : List Char} (h : IdSafe l) :
    ∀ c ∈ l, (c == '?' || c == '#') = false := by
  intro c hc
  rw [isIdChar_beq_false (h c hc) (by decide), isIdChar_beq_false (h c hc) (by decide)]
  rfl

/-- Parsing the canonical watch form: host `www.youtube.com`, path
`/watch`, query `v=<id>`. -/
theorem parse_watch {id : List Char} (h : IdSafe id) :
    parseURLChars ("https://www.youtube.com/watch?v=".data ++ id)
      = some ⟨"www.youtube.com".data, "/watch".data, 'v' :: '=' ::id⟩ := by
  have e1 : spanBefore (fun c => c == ':')
      ('h' :: 't' :: 't' :: 'p' :: 's' :: ':' :: '/' :: '/' :: 'w' :: 'w' :: 'w' :: '.' :: 'y' :: 'o' :: 'u' :: 't' :: 'u' :: 'b' :: 'e' :: '.' :: 'c' :: 'o' :: 'm' :: '/' :: 'w' :: 'a' :: 't' :: 'c' :: 'h' :: '?' :: 'v' :: '=' ::id)
      = (['h','t','t','p','s'],
         ':' :: '/' :: '/' :: 'w' :: 'w' :: 'w' :: '.' :: 'y' :: 'o' :: 'u' :: 't' :: 'u' :: 'b' :: 'e' :: '.' :: 'c' :: 'o' :: 'm' :: '/' :: 'w' :: 'a' :: 't' :: 'c' :: 'h' :: '?' :: 'v' :: '=' ::id) := by
    show spanBefore _ (['h','t','t','p','s'] ++
      (':' :: '/' :: '/' :: 'w' :: 'w' :: 'w' :: '.' :: 'y' :: 'o' :: 'u' :: 't' :: 'u' :: 'b' :: 'e' :: '.' :: 'c' :: 'o' :: 'm' :: '/' :: 'w' :: 'a' :: 't' :: 'c' :: 'h' :: '?' :: 'v' :: '=' ::id)) = _
    rw [spanBefore_append _ (by decide), spanBefore_cons_pos _ (by decide)]
    rfl
  have e2 : spanBefore (fun c => c == '/' || c == '?' || c == '#')
      ('w' :: 'w' :: 'w' :: '.' :: 'y' :: 'o' :: 'u' :: 't' :: 'u' :: 'b' :: 'e' :: '.' :: 'c' :: 'o' :: 'm' :: '/' :: 'w' :: 'a' :: 't' :: 'c' :: 'h' :: '?' :: 'v' :: '=' ::id)
      = (['w','w','w','.','y','o','u','t','u','b','e','.','c','o','m'],
         '/' :: 'w' :: 'a' :: 't' :: 'c' :: 'h' :: '?' :: 'v' :: '=' ::id) := by
    show spanBefore _ (['w','w','w','.','y','o','u','t','u','b','e','.','c','o','m'] ++
      ('/' :: 'w' :: 'a' :: 't' :: 'c' :: 'h' :: '?' :: 'v' :: '=' ::id)) = _
    rw [spanBefore_append _ (by decide), spanBefore_cons_pos _ (by decide)]
    rfl
  have e3 : spanBefore (fun c => c == '?' || c == '#')
      ('/' :: 'w' :: 'a' :: 't' :: 'c' :: 'h' :: '?' :: 'v' :: '=' ::id)
      = (['/','w','a','t','c','h'], '?' :: 'v' :: '=' ::id) := by
    show spanBefore _ (['/','w','a','t','c','h'] ++ ('?' :: 'v' :: '=' ::id)) = _
    rw [spanBefore_append _ (by decide), spanBefore_cons_pos _ (by decide)]
    rfl
  have e4 : spanBefore (fun c => c == '#') ('v' :: '=' ::id) = ('v' :: '=' ::id, []) := by
    show spanBefore _ (['v','='] ++ id) = _
    rw [spanBefore_append _ (by decide), spanBefore_all_not (idSafe_no '#' (by decide) h)]
    rfl
  have e5 : (spanBefore (fun c => c == ':')
      (afterLastAt ['w','w','w','.','y','o','u','t','u','b','e','.','c','o','m'])).1
      = ['w','w','w','.','y','o','u','t','u','b','e','.','c','o','m'] := by decide
  have e6 : isSchemeHeadChar 'h' = true := by decide
  have t1 : Char.toLower 'y' = 'y' := by decide
  have t2 : Char.toLower 'o' = 'o' := by decide
  have t3 : Char.toLower 'u' = 'u' := by decide
  have t4 : Char.toLower 't' = 't' := by decide
  have t5 : Char.toLower '.' = '.' := by decide
  have t6 : Char.toLower 'b' = 'b' := by decide
  have t7 : Char.toLower 'e' = 'e' := by decide
  have t8 : Char.toLower 'w' = 'w' := by decide
  have t9 : Char.toLower 'c' = 'c' := by decide
  have t10 : Char.toLower 'm' = 'm' := by decide
  simp [parseURLChars, e1, e2, e3, e4, e5, e6,
    t1, t2, t3, t4, t5, t6, t7, t8, t9, t10]

/-- Parsing the canonical shorts form: host `www.youtube.com`, path
`/shorts/<id>`, empty query. -/
theorem parse_shorts {id : List Char} (h : IdSafe id) :
    parseURLChars ("https://www.youtube.com/shorts/".data ++ id)
      = some ⟨"www.youtube.com".data, "/shorts/".data ++ id, []⟩ := by
  have e1 : spanBefore (fun c => c == ':')
      ('h' :: 't' :: 't' :: 'p' :: 's' :: ':' :: '/' :: '/' :: 'w' :: 'w' :: 'w' :: '.' :: 'y' :: 'o' :: 'u' :: 't' :: 'u' :: 'b' :: 'e' :: '.' :: 'c' :: 'o' :: 'm' :: '/' :: 's' :: 'h' :: 'o' :: 'r' :: 't' :: 's' :: '/' ::id)
      = (['h','t','t','p','s'],
         ':' :: '/' :: '/' :: 'w' :: 'w' :: 'w' :: '.' :: 'y' :: 'o' :: 'u' :: 't' :: 'u' :: 'b' :: 'e' :: '.' :: 'c' :: 'o' :: 'm' :: '/' :: 's' :: 'h' :: 'o' :: 'r' :: 't' :: 's' :: '/' ::id) := by
    show spanBefore _ (['h','t','t','p','s'] ++
      (':' :: '/' :: '/' :: 'w' :: 'w' :: 'w' :: '.' :: 'y' :: 'o' :: 'u' :: 't' :: 'u' :: 'b' :: 'e' :: '.' :: 'c' :: 'o' :: 'm' :: '/' :: 's' :: 'h' :: 'o' :: 'r' :: 't' :: 's' :: '/' ::id)) = _
    rw [spanBefore_append _ (by decide), spanBefore_cons_pos _ (by decide)]
    rfl
  have e2 : spanBefore (fun c => c == '/' || c == '?' || c == '#')
      ('w' :: 'w' :: 'w' :: '.' :: 'y' :: 'o' :: 'u' :: 't' :: 'u' :: 'b' :: 'e' :: '.' :: 'c' :: 'o' :: 'm' :: '/' :: 's' :: 'h' :: 'o' :: 'r' :: 't' :: 's' :: '/' ::id)
      = (['w','w','w','.','y','o','u','t','u','b','e','.','c','o','m'],
         '/' :: 's' :: 'h' :: 'o' :: 'r' :: 't' :: 's' :: '/' ::id) := by
    show spanBefore _ (['w','w','w','.','y','o','u','t','u','b','e','.','c','o','m'] ++
      ('/' :: 's' :: 'h' :: 'o' :: 'r' :: 't' :: 's' :: '/' ::id)) = _
    rw [spanBefore_append _ (by decide), spanBefore_cons_pos _ (by decide)]
    rfl
  have e3 : spanBefore (fun c => c == '?' || c == '#')
      ('/' :: 's' :: 'h' :: 'o' :: 'r' :: 't' :: 's' :: '/' ::id)
      = ('/' :: 's' :: 'h' :: 'o' :: 'r' :: 't' :: 's' :: '/' ::id, []) := by
    show spanBefore _ (['/','s','h','o','r','t','s','/'] ++ id) = _
    rw [spanBefore_append _ (by decide), spanBefore_all_not (idSafe_pq h)]
    rfl
  have e5 : (spanBefore (fun c => c == ':')
      (afterLastAt ['w','w','w','.','y','o','u','t','u','b','e','.','c','o','m'])).1
      = ['w','w','w','.','y','o','u','t','u','b','e','.','c','o','m'] := by decide
  have e6 : isSchemeHeadChar 'h' = true := by decide
  have t1 : Char.toLower 'y' = 'y' := by decide
  have t2 : Char.toLower 'o' = 'o' := by decide
  have t3 : Char.toLower 'u' = 'u' := by decide
  have t4 : Char.toLower 't' = 't' := by decide
  have t5 : Char.toLower '.' = '.' := by decide
  have t6 : Char.toLower 'b' = 'b' := by decide
  have t7 : Char.toLower 'e' = 'e' := by decide
  have t8 : Char.toLower 'w' = 'w' := by decide
  have t9 : Char.toLower 'c' = 'c' := by decide
  have t10 : Char.toLower 'm' = 'm' := by decide
  simp [parseURLChars, e1, e2, e3, e5, e6,
    t1, t2, t3, t4, t5, t6, t7, t8, t9, t10]

/-- Parsing the canonical short-link form: host `youtu.be`, path `/<id>`,
empty query. -/
theorem parse_youtu {id : List Char} (h : IdSafe id) :
    parseURLChars ("https://youtu.be/".data ++ id)
      = some ⟨"youtu.be".data, '/' :: id, []⟩ := by
  have e1 : spanBefore (fun c => c == ':')
      ('h' :: 't' :: 't' :: 'p' :: 's' :: ':' :: '/' :: '/' :: 'y' :: 'o' :: 'u' :: 't' :: 'u' :: '.' :: 'b' :: 'e' :: '/' ::id)
      = (['h','t','t','p','s'],
         ':' :: '/' :: '/' :: 'y' :: 'o' :: 'u' :: 't' :: 'u' :: '.' :: 'b' :: 'e' :: '/' ::id) := by
    show spanBefore _
      (['h','t','t','p','s'] ++ (':' :: '/' :: '/' :: 'y' :: 'o' :: 'u' :: 't' :: 'u' :: '.' :: 'b' :: 'e' :: '/' ::id)) = _
    rw [spanBefore_append _ (by decide), spanBefore_cons_pos _ (by decide)]
    rfl
  have e2 : spanBefore (fun c => c == '/' || c == '?' || c == '#')
      ('y' :: 'o' :: 'u' :: 't' :: 'u' :: '.' :: 'b' :: 'e' :: '/' ::id)
      = (['y','o','u','t','u','.','b','e'], '/' ::id) := by
    show spanBefore _ (['y','o','u','t','u','.','b','e'] ++ ('/' ::id)) = _
    rw [spanBefore_append _ (by decide), spanBefore_cons_pos _ (by decide)]
    rfl
  have e3 : spanBefore (fun c => c == '?' || c == '#') ('/' :: id)
      = ('/' :: id, []) := by
    rw [spanBefore_cons_neg _ (by decide), spanBefore_all_not (idSafe_pq h)]
  have e4 : (spanBefore (fun c => c == ':')
      (afterLastAt ['y','o','u','t','u','.','b','e'])).1
      = ['y','o','u','t','u','.','b','e'] := by decide
  have e5 : isSchemeHeadChar 'h' = true := by decide
  have t1 : Char.toLower 'y' = 'y' := by decide
  have t2 : Char.toLower 'o' = 'o' := by decide
  have t3 : Char.toLower 'u' = 'u' := by decide
  have t4 : Char.toLower 't' = 't' := by decide
  have t5 : Char.toLower '.' = '.' := by decide
  have t6 : Char.toLower 'b' = 'b' := by decide
  have t7 : Char.toLower 'e' = 'e' := by decide
  simp [parseURLChars, e1, e2, e3, e4, e5, t1, t2, t3, t4, t5, t6, t7]

/-- The `v` parameter of the canonical watch query `v=<id>` is the id
itself when the id has no decodable characters. -/
theorem searchParamsGet_canon {id : List Char} (h : IdSafe id) :
    searchParamsGet ('v' :: '=' ::id) ['v'] = some id := by
  have h1 : splitOnChar '&' ('v' :: '=' ::id) = ['v' :: '=' ::id] := by
    apply splitOnChar_all_not
    intro c hc
    rcases List.mem_cons.mp hc with rfl | hc
    · decide
    rcases List.mem_cons.mp hc with rfl | hc
    · decide
    · exact idSafe_ne '&' (by decide) h c hc
  have h2 : spanBefore (fun c => c == '=') ('v' :: '=' ::id) = (['v'], '=' ::id) := by
    rw [spanBefore_cons_neg _ (by decide), spanBefore_cons_pos _ (by decide)]
  have h3 : percentDecode ['v'] = ['v'] := by decide
  simp [searchParamsGet, h1, findParam, h2, h3, percentDecode_safe h]

/-- Normalizing a canonical watch URL returns it unchanged (for an
id made of id characters). -/
theorem clean_watch_ok {id : List Char} (h : IdSafe id) (hne : id ≠ []) :
    cleanChars (watchBase ++ id) = CleanResult.ok ⟨watchBase ++ id⟩ "video" := by
  have hid : id.isEmpty = false := isEmpty_false_of_ne_nil hne
  have hca : (['w','w','w','.','y','o','u','t','u','b','e','.','c','o','m'] : List Char)
      ∈ allowedHosts := by decide
  have hne1 : (['w','w','w','.','y','o','u','t','u','b','e','.','c','o','m'] : List Char)
      ≠ ['y','o','u','t','u','.','b','e'] := by decide
  have hpre : List.isPrefixOf ['/','w','a','t','c','h'] ['/','w','a','t','c','h'] = true := by
    decide
  have t1 : Char.toLower 'y' = 'y' := by decide
  have t2 : Char.toLower 'o' = 'o' := by decide
  have t3 : Char.toLower 'u' = 'u' := by decide
  have t4 : Char.toLower 't' = 't' := by decide
  have t5 : Char.toLower '.' = '.' := by decide
  have t6 : Char.toLower 'b' = 'b' := by decide
  have t7 : Char.toLower 'e' = 'e' := by decide
  have t8 : Char.toLower 'w' = 'w' := by decide
  have t9 : Char.toLower 'c' = 'c' := by decide
  have t10 : Char.toLower 'm' = 'm' := by decide
  show cleanChars ("https://www.youtube.com/watch?v=".data ++ id) = _
  unfold cleanChars
  rw [parse_watch h]
  simp [searchParamsGet_canon h, watchBase,
    hid, hca, hne1, hpre, t1, t2, t3, t4, t5, t6, t7, t8, t9, t10]

/-- Normalizing a canonical shorts URL returns it unchanged (for an
id made of id characters). -/
theorem clean_shorts_ok {id : List Char} (h : IdSafe id) (hne : id ≠ []) :
    cleanChars (shortsBase ++ id) = CleanResult.ok ⟨shortsBase ++ id⟩ "short" := by
  have hid : id.isEmpty = false := isEmpty_false_of_ne_nil hne
  have hca : (['w','w','w','.','y','o','u','t','u','b','e','.','c','o','m'] : List Char)
      ∈ allowedHosts := by decide
  have hne1 : (['w','w','w','.','y','o','u','t','u','b','e','.','c','o','m'] : List Char)
      ≠ ['y','o','u','t','u','.','b','e'] := by decide
  have hnp : List.isPrefixOf ['/','w','a','t','c','h']
      ('/' :: 's' :: 'h' :: 'o' :: 'r' :: 't' :: 's' :: '/' ::id) = false := rfl
  have hsub : listContainsSub ['/','s','h','o','r','t','s','/']
      ('/' :: 's' :: 'h' :: 'o' :: 'r' :: 't' :: 's' :: '/' ::id) = true :=
    listContainsSub_of_pre (isPre_append ['/','s','h','o','r','t','s','/'] id)
  have hq1 : splitOnChar '/' id = [id] :=
    splitOnChar_all_not (idSafe_ne '/' (by decide) h)
  have hq2 : splitOnChar '/' ('/' ::id) = [[], id] := by
    simp [splitOnChar, hq1]
  have hq3 : splitOnChar '/' ('s' :: 'h' :: 'o' :: 'r' :: 't' :: 's' :: '/' ::id)
      = [['s','h','o','r','t','s'], id] := by
    show splitOnChar '/' (['s','h','o','r','t','s'] ++ ('/' ::id)) = _
    rw [splitOnChar_append ['s','h','o','r','t','s'] (by decide) hq2]
    rfl
  have hq4 : splitOnChar '/' ('/' :: 's' :: 'h' :: 'o' :: 'r' :: 't' :: 's' :: '/' ::id)
      = [[], ['s','h','o','r','t','s'], id] := by
    simp [splitOnChar, hq3, hq1]
  have hbeq : ((['s','h','o','r','t','s'] : List Char) == ['s','h','o','r','t','s']) = true := by
    decide
  have t1 : Char.toLower 'y' = 'y' := by decide
  have t2 : Char.toLower 'o' = 'o' := by decide
  have t3 : Char.toLower 'u' = 'u' := by decide
  have t4 : Char.toLower 't' = 't' := by decide
  have t5 : Char.toLower '.' = '.' := by decide
  have t6 : Char.toLower 'b' = 'b' := by decide
  have t7 : Char.toLower 'e' = 'e' := by decide
  have t8 : Char.toLower 'w' = 'w' := by decide
  have t9 : Char.toLower 'c' = 'c' := by decide
  have t10 : Char.toLower 'm' = 'm' := by decide
  show cleanChars ("https://www.youtube.com/shorts/".data ++ id) = _
  unfold cleanChars
  rw [parse_shorts h]
  simp [shortsBase,
    hid, hca, hne1, hnp, hsub, hq4, hbeq, List.findIdx?_cons,
    t1, t2, t3, t4, t5, t6, t7, t8, t9, t10]

/-- Normalizing a canonical short-link URL yields the canonical watch
URL (for an id made of id characters). -/
theorem clean_youtu_ok {id : List Char} (h : IdSafe id) (hne : id ≠ []) :
    cleanChars ("https://youtu.be/".data ++ id)
      = CleanResult.ok ⟨watchBase ++ id⟩ "video" := by
  have hid : id.isEmpty = false := isEmpty_false_of_ne_nil hne
  have hca : (['y','o','u','t','u','.','b','e'] : List Char) ∈ allowedHosts := by decide
  have hdrop : id.dropWhile (fun c => c == '/') = id :=
    dropWhile_all_not (idSafe_no '/' (by decide) h)
  have hsplit : splitOnChar '/' id = [id] :=
    splitOnChar_all_not (idSafe_ne '/' (by decide) h)
  have t1 : Char.toLower 'y' = 'y' := by decide
  have t2 : Char.toLower 'o' = 'o' := by decide
  have t3 : Char.toLower 'u' = 'u' := by decide
  have t4 : Char.toLower 't' = 't' := by decide
  have t5 : Char.toLower '.' = '.' := by decide
  have t6 : Char.toLower 'b' = 'b' := by decide
  have t7 : Char.toLower 'e' = 'e' := by decide
  unfold cleanChars
  rw [parse_youtu h]
  simp [watchBase, hid, hca, hdrop, hsplit,
    t1, t2, t3, t4, t5, t6, t7]

theorem ne_nil_of_not_isEmpty_true {l : List Char} (h : ¬ (l.isEmpty = true)) :
    l ≠ [] := fun e => h (by subst e; rfl)

/-- Every successful normalization result is a canonical watch or shorts
URL built from a non-empty extracted id. -/
theorem cleanChars_ok_shape {l : List Char} {url kind : String}
    (hx : cleanChars l = CleanResult.ok url kind) :
    ∃ id : List Char, id ≠ [] ∧
      ((url = ⟨watchBase ++ id⟩ ∧ kind = "video") ∨
       (url = ⟨shortsBase ++ id⟩ ∧ kind = "short")) := by
  unfold cleanChars at hx
  simp only [] at hx
  repeat' split at hx
  all_goals
    first
      | exact (CleanResult.noConfusion hx)
      | (rename_i hemp
         injection hx with h1 h2
         first
           | exact ⟨_, ne_nil_of_not_isEmpty_true hemp, Or.inl ⟨h1.symm, h2.symm⟩⟩
           | exact ⟨_, ne_nil_of_not_isEmpty_true hemp, Or.inr ⟨h1.symm, h2.symm⟩⟩)

/-- C7: for every non-empty video id (made of id characters), normalizing
the short-link form `https://youtu.be/<id>` succeeds with the same result
as normalizing the primary watch form
`https://www.youtube.com/watch?v=<id>`: both give the canonical URL
`https://www.youtube.com/watch?v=<id>` with variant `video`. -/
theorem C7_shortlink_equiv_watch (id : String) (h1 : id ≠ "")
    (h2 : IdSafe id.data) :
    cleanYouTubeUrl ("https://youtu.be/" ++ id)
        = CleanResult.ok ("https://www.youtube.com/watch?v=" ++ id) "video" ∧
    cleanYouTubeUrl ("https://www.youtube.com/watch?v=" ++ id)
        = CleanResult.ok ("https://www.youtube.com/watch?v=" ++ id) "video" := by
  have hd : id.data ≠ [] := fun e => h1 (String.ext e)
  have hw : ("https://www.youtube.com/watch?v=" ++ id)
      = (⟨watchBase ++ id.data⟩ : String) := String.ext (String.data_append _ _)
  constructor
  · show cleanChars ("https://youtu.be/" ++ id).data = _
    rw [String.data_append, clean_youtu_ok h2 hd, hw]
  · show cleanChars ("https://www.youtube.com/watch?v=" ++ id).data = _
    rw [String.data_append]
    show cleanChars (watchBase ++ id.data) = _
    rw [clean_watch_ok h2 hd, hw]

/-- Witness for C7 at the concrete id `abc123`. -/
theorem C7_shortlink_equiv_watch_witness :
    cleanYouTubeUrl ("https://youtu.be/" ++ "abc123")
        = CleanResult.ok ("https://www.youtube.com/watch?v=" ++ "abc123") "video" ∧
    cleanYouTubeUrl ("https://www.youtube.com/watch?v=" ++ "abc123")
        = CleanResult.ok ("https://www.youtube.com/watch?v=" ++ "abc123") "video" :=
  C7_shortlink_equiv_watch "abc123" (by decide) (by decide)

/-- C8 counterexample: the normalizer is not idempotent on all inputs it
accepts.  `https://www.youtube.com/watch?v=a%23b` normalizes successfully
to `https://www.youtube.com/watch?v=a#b` (the `%23` percent-decodes to
`#`), but re-normalizing that output parses `#b` as a fragment and yields
the different URL `https://www.youtube.com/watch?v=a`. -/
theorem C8_not_idempotent_counterexample :
    cleanYouTubeUrl "https://www.youtube.com/watch?v=a%23b"
        = CleanResult.ok "https://www.youtube.com/watch?v=a#b" "video" ∧
    cleanYouTubeUrl "https://www.youtube.com/watch?v=a#b"
        = CleanResult.ok "https://www.youtube.com/watch?v=a" "video" ∧
    ("https://www.youtube.com/watch?v=a" : String)
        ≠ "https://www.youtube.com/watch?v=a#b" :=
  ⟨by decide, by decide, by decide⟩

/-- C8 (amended): every successful normalization produces a canonical
watch or shorts URL built from a non-empty extracted id, and whenever
that id consists of plain id characters (so that percent-decoding could
not have introduced URL metacharacters such as `#`), re-normalizing the
produced URL succeeds and returns the same canonical URL and the same
variant kind. -/
theorem C8_idempotent_on_safe_ids (x : String) {url kind : String}
    (hx : cleanYouTubeUrl x = CleanResult.ok url kind) :
    ∃ id : List Char, id ≠ [] ∧
      ((url.data = watchBase ++ id ∧ kind = "video") ∨
       (url.data = shortsBase ++ id ∧ kind = "short")) ∧
      (IdSafe id → cleanYouTubeUrl url = CleanResult.ok url kind) := by
  obtain ⟨id, hne, hc⟩ := cleanChars_ok_shape hx
  refine ⟨id, hne, ?_, ?_⟩
  · rcases hc with ⟨h1, h2⟩ | ⟨h1, h2⟩
    · exact Or.inl ⟨by rw [h1], h2⟩
    · exact Or.inr ⟨by rw [h1], h2⟩
  · intro hs
    rcases hc with ⟨h1, h2⟩ | ⟨h1, h2⟩
    · subst h1; subst h2
      exact clean_watch_ok hs hne
    · subst h1; subst h2
      exact clean_shorts_ok hs hne

/-- Witness for the amended C8 at the concrete input
`https://youtu.be/abc123`. -/
theorem C8_idempotent_on_safe_ids_witness :
    ∃ id : List Char, id ≠ [] ∧
      ((("https://www.youtube.com/watch?v=abc123" : String).data = watchBase ++ id
          ∧ ("video" : String) = "video") ∨
       (("https://www.youtube.com/watch?v=abc123" : String).data = shortsBase ++ id
          ∧ ("video" : String) = "short")) ∧
      (IdSafe id → cleanYouTubeUrl "https://www.youtube.com/watch?v=abc123"
          = CleanResult.ok "https://www.youtube.com/watch?v=abc123" "video") :=
  C8_idempotent_on_safe_ids "https://youtu.be/abc123" (by decide)

/-! ## Preview-skeleton loader (src/static/app.js lines 112-119) -/

/-- State of the `loader` object together with the preview panels it
shows/hides. -/
structure LoaderState where
  need : Nat
  done : Nat
  armed : Bool
  timeoutScheduled : Bool
  previewVisible : Bool
  previewSkelVisible : Bool
deriving DecidableEq

/-- `loader.reset()`: zero the counters, disarm, cancel a pending timeout. -/
def loaderReset (s : LoaderState) : LoaderState :=
  { s with need := 0, done := 0, armed := false, timeoutScheduled := false }

/-- `loader.add()`. -/
def loaderAdd (s : LoaderState) : LoaderState := { s with need := s.need + 1 }

/-- `loader.mark()`: bump `done`; when armed and complete, schedule the
60ms debounced reveal (modelled by `debounceReveal` applied afterwards). -/
def loaderMark (s : LoaderState) : LoaderState :=
  let s := { s with done := s.done + 1 }
  if s.armed ∧ s.need ≤ s.done then debounceReveal s else s
where
  debounceReveal (s : LoaderState) : LoaderState :=
    { s with previewSkelVisible := false, previewVisible := true }

/-- `loader.arm()`: arm, reveal at once when nothing is awaited, and
schedule the 1000ms hard timeout. -/
def loaderArm (s : LoaderState) : LoaderState :=
  let s := { s with armed := true }
  let s := if s.need = 0
    then { s with previewSkelVisible := false, previewVisible := true }
    else s
  { s with timeoutScheduled := true }

/-- The 1000ms timeout callback firing (only a still-scheduled timeout
can fire): hide the skeleton, show the preview. -/
def loaderTimeout (s : LoaderState) : LoaderState :=
  if s.timeoutScheduled then
    { s with previewSkelVisible := false, previewVisible := true,
             timeoutScheduled := false }
  else s

/-! ## Progress mapper (src/static/app.js lines 332-351) -/

/-- JS `x || dflt` on a nullable string field. -/
def jsOr (o : Option String) (dflt : String) : String :=
  match o with
  | none => dflt
  | some s => if s = "" then dflt else s

/-- The payload of `GET /api/progress/{job_id}`. -/
structure ProgressPayload where
  ok : Bool
  status : Option String
  progress : Option ℚ
  downloaded : Option String
  total : Option String
  speed : Option String
  eta : Option ℚ
  error : Option String
  startedAtIst : Option String
  expiresAtIst : Option String
  filename : Option String
  downloadUrl : Option String
deriving DecidableEq

/-- The percent mapping of `updateProgress`:
`Number(d.progress || 0)`, floor at 99 while `processing`, then clamp
into `[0,100]`. -/
def mapPct (status : Option String) (progress : Option ℚ) : ℚ :=
  let pct := progress.getD 0
  let pct := if status.getD "" = "processing" ∧ pct < 99 then (99 : ℚ) else pct
  max 0 (min 100 pct)

/-- JS `Number.prototype.toFixed(0)` (round to nearest, ties up). -/
def jsToFixed0 (q : ℚ) : String := toString ⌊q + 1/2⌋

/-- JS `Number.prototype.toFixed(1)` (round to nearest tenth, ties up). -/
def jsToFixed1 (q : ℚ) : String :=
  toString (⌊q * 10 + 1/2⌋ / 10) ++ "." ++ toString (⌊q * 10 + 1/2⌋ % 10)

/-- The `displayStatus` helper: em-dash for a missing/empty status,
lower-case otherwise, with `processing` displayed as `downloading`. -/
def displayStatus (s : Option String) : String :=
  match s with
  | none => "—"
  | some s =>
    if s = "" then "—"
    else if s.toLower = "processing" then "downloading" else s.toLower

/-- The UI regions and texts the controller mutates. -/
structure UI where
  previewVisible : Bool
  previewSkelVisible : Bool
  progressSkelVisible : Bool
  progressBlockVisible : Bool
  resultBlockVisible : Bool
  cancelBlockVisible : Bool
  errBoxVisible : Bool
  cancelBtnVisible : Bool
  newBtnTopVisible : Bool
  progADSkelVisible : Bool
  progADWrapVisible : Bool
  barWidth : ℚ
  barText : String
  statusBadge : String
  downloadedText : String
  totalText : String
  speedText : String
  etaText : String
  startedAtText : String
  expiresAtText : String
  titleText : String
  channelNameText : String
  channelSubsText : String
  thumbSrc : Option String
  channelAvatarSrc : Option String
  errmsgText : String
  filenameText : String
  downloadHref : Option String
  resultExpiresText : String
  urlInputValue : String
  barSkel : Bool
  toasts : List String
deriving DecidableEq

/-- Left-pad a digit string with zeros to `k` characters. -/
def zeroPad (k : Nat) (s : String) : String :=
  ⟨List.replicate (k - s.data.length) '0' ++ s.data⟩

/-- JS number-to-string conversion (as in `d.eta + 's'`), for the
rationals JSON numbers denote: an integer prints without a decimal
point, a terminating decimal prints with its shortest decimal expansion
(sign, integer part, `.`, fraction digits); a non-terminating rational
(unreachable from a JSON double) falls back to `num/den`. -/
def jsNumToString (q : ℚ) : String :=
  if q.den = 1 then toString q.num
  else
    match (List.range 17).find? (fun k => (10 ^ (k + 1)) % q.den == 0) with
    | some k =>
      let p : ℕ := 10 ^ (k + 1)
      let m := q.num * ((p / q.den : ℕ) : ℤ)
      let sign := if m < 0 then "-" else ""
      let a := m.natAbs
      sign ++ toString (a / p) ++ "." ++ zeroPad (k + 1) (toString (a % p))
    | none => toString q.num ++ "/" ++ toString q.den

/-- `updateProgress(d)` (lines 332-351): set the bar width/label from the
mapped percent, the badge from `displayStatus(d.status).toUpperCase()`,
and the four numeric chips with their `||`-placeholders, the ETA as
`<eta>s` when present (the number rendered verbatim, with no rounding)
and `-` otherwise. -/
def updateProgress (d : ProgressPayload) (u : UI) : UI :=
  let pct := mapPct d.status d.progress
  { u with
    barWidth := pct,
    barText := jsToFixed0 pct ++ "%",
    statusBadge := (displayStatus d.status).toUpper,
    downloadedText := jsOr d.downloaded "0 B",
    totalText := jsOr d.total "?",
    speedText := jsOr d.speed "-",
    etaText := match d.eta with
      | some e => jsNumToString e ++ "s"
      | none => "-" }

/-! ## Job controller state (src/static/app.js lines 51-53, 125-330) -/

/-- The controller's mutable state: the three globals of the source
(`currentJobId`, `currentCleanUrl`, `pollTimer`), plus the set of
interval timers actually installed in the browser (`setInterval` returns
a fresh id and records it; `clearInterval` de-installs one) and the UI. -/
structure AppState where
  currentJobId : Option String
  currentCleanUrl : Option String
  pollTimer : Option Nat
  activeIntervals : List Nat
  nextTimer : Nat
  ui : UI
deriving DecidableEq

/-- `clearInterval(pollTimer)`: de-install the interval whose id the
`pollTimer` variable holds (a no-op on `null`). -/
def clearPollInterval (s : AppState) : AppState :=
  match s.pollTimer with
  | some t => { s with activeIntervals := s.activeIntervals.filter (fun i => !(i == t)) }
  | none => s

/-- `resetUI()` (lines 125-140): hide every panel, blank the preview and
progress texts, restore cancel/new buttons and skeletons, and clear
`currentJobId`.  Mirrors the source exactly: it contains no
`clearInterval`, so `pollTimer`/`activeIntervals` are untouched. -/
def resetUI (s : AppState) : AppState :=
  { s with
    currentJobId := none,
    ui := { s.ui with
      previewVisible := false, previewSkelVisible := false,
      progressSkelVisible := false, progressBlockVisible := false,
      resultBlockVisible := false, cancelBlockVisible := false,
      errBoxVisible := false,
      titleText := "", channelNameText := "", channelSubsText := "",
      thumbSrc := none, channelAvatarSrc := none,
      barWidth := 0, barText := "0%",
      downloadedText := "0 B", totalText := "?", speedText := "-", etaText := "-",
      startedAtText := "—", expiresAtText := "—",
      newBtnTopVisible := false, cancelBtnVisible := true,
      progADSkelVisible := true, progADWrapVisible := false,
      barSkel := false } }

/-- `clearForNew()` (lines 142-146): `resetUI` then clear the input. -/
def clearForNew (s : AppState) : AppState :=
  let s := resetUI s
  { s with ui := { s.ui with urlInputValue := "" } }

/-- The successful tail of the start/retry flow (lines 263-271 resp.
182-188): store the new job id, swap the skeleton for the progress block,
start the bar shimmer, and install a fresh polling interval, recording
its id in `pollTimer`. -/
def startJobSuccess (s : AppState) (jobId : String) : AppState :=
  { s with
    currentJobId := some jobId,
    pollTimer := some s.nextTimer,
    activeIntervals := s.nextTimer :: s.activeIntervals,
    nextTimer := s.nextTimer + 1,
    ui := { s.ui with
      progressSkelVisible := false, progressBlockVisible := true,
      barSkel := true,
      progADSkelVisible := true, progADWrapVisible := false,
      expiresAtText := "—",
      toasts := "Downloading started." :: s.ui.toasts } }

/-- Response of `POST /api/cancel/{job_id}`. -/
structure CancelResponse where
  ok : Bool
  message : Option String
deriving DecidableEq

/-- The cancel-button click handler (lines 149-161): a no-op without an
active job; otherwise fire the request and toast the outcome
(`none` models a transport failure reaching the `catch`). -/
def cancelClick (s : AppState) (resp : Option CancelResponse) : AppState :=
  match s.currentJobId with
  | none => s
  | some _ =>
    let msg := match resp with
      | some r => if r.ok then "Cancelling…" else jsOr r.message "Failed to cancel."
      | none => "Failed to cancel."
    { s with ui := { s.ui with toasts := msg :: s.ui.toasts } }

/-- Outcome of one poll request: a transport/parse failure with the
exception's message, or a decoded payload. -/
inductive PollResult where
  | failure (msg : String)
  | response (d : ProgressPayload)
deriving DecidableEq

/-- The shared `catch` of `poll` (lines 325-329): stop the interval,
toast the message, swap cancel for the new-job button. -/
def pollCatch (s : AppState) (msg : String) : AppState :=
  let s := clearPollInterval s
  { s with ui := { s.ui with
      toasts := msg :: s.ui.toasts,
      cancelBtnVisible := false, newBtnTopVisible := true } }

/-- Truthiness of a nullable string (`undefined`/`null`/`""` are falsy). -/
def truthy (o : Option String) : Bool :=
  match o with
  | none => false
  | some s => !(s == "")

/-- One `poll()` invocation (lines 282-330) applied to the outcome of its
fetch: return early without a job id; a failed fetch/parse or `ok:false`
payload goes to the catch; otherwise update the started-at line, stop the
bar shimmer once past `queued`, reveal the expiry chip, run
`updateProgress`, and dispatch on the terminal statuses, each of which
clears the polling interval. -/
def poll (s : AppState) (r : PollResult) : AppState :=
  match s.currentJobId with
  | none => s
  | some _ =>
    match r with
    | PollResult.failure msg => pollCatch s msg
    | PollResult.response d =>
      if !d.ok then pollCatch s (jsOr d.error "Progress error")
      else
        let u := s.ui
        let u := match d.startedAtIst with
          | some t => if t = "" then u else { u with startedAtText := "Started: " ++ t }
          | none => u
        let u := if truthy d.status && !(((d.status.getD "").toLower) == "queued")
          then { u with barSkel := false } else u
        let u := if truthy d.expiresAtIst
            && (d.status == some "downloading" || d.status == some "processing"
                || d.status == some "finished")
          then { u with expiresAtText := (d.expiresAtIst).getD "",
                        progADSkelVisible := false, progADWrapVisible := true }
          else u
        let u := updateProgress d u
        if d.status == some "finished" then
          let s2 := clearPollInterval { s with ui := u }
          { s2 with ui := { s2.ui with
              cancelBtnVisible := false, newBtnTopVisible := true,
              filenameText := jsOr d.filename "(unknown)",
              downloadHref := if truthy d.downloadUrl then d.downloadUrl else s2.ui.downloadHref,
              resultExpiresText := jsOr d.expiresAtIst "—",
              resultBlockVisible := true } }
        else if d.status == some "expired" then
          let s2 := clearPollInterval { s with ui := u }
          { s2 with ui := { s2.ui with
              toasts := "This file has expired and was auto-deleted." :: s2.ui.toasts,
              cancelBtnVisible := false, newBtnTopVisible := true } }
        else if d.status == some "cancelled" then
          let s2 := clearPollInterval { s with ui := u }
          { s2 with ui := { s2.ui with
              toasts := "Download cancelled." :: s2.ui.toasts,
              progressBlockVisible := false, resultBlockVisible := false,
              cancelBlockVisible := true } }
        else if d.status == some "error" then
          let s2 := clearPollInterval { s with ui := u }
          { s2 with ui := { s2.ui with
              toasts := jsOr d.error "Unknown error" :: s2.ui.toasts,
              errBoxVisible := true, errmsgText := jsOr d.error "Unknown error",
              cancelBtnVisible := false, newBtnTopVisible := true } }
        else { s with ui := u }

/-! ## Subscriber-count formatter (src/static/app.js lines 365-375) -/

/-- The `.replace(/\.0$/, '')` of `formatSubs`. -/
def stripDotZero (s : String) : String :=
  if s.data.length ≥ 2 ∧ s.data.drop (s.data.length - 2) = ['.', '0']
  then ⟨s.data.take (s.data.length - 2)⟩ else s

/-- One unit arm of the `formatSubs` loop body. -/
def subsStr (n : Nat) (unit : Nat) (sym : String) : String :=
  let q : ℚ := (n : ℚ) / (unit : ℚ)
  stripDotZero (if n ≥ 100000 then jsToFixed0 q else jsToFixed1 q)
    ++ sym ++ " subscribers"

/-- `formatSubs(n)` for integer counts: walk the units array from the
largest down (`B`/1e9, `M`/1e6, `K`/1e3, and the base unit whose symbol
is also `B`), format with 0 or 1 decimals, strip a trailing `.0`. -/
def formatSubs (n : Nat) : String :=
  if n ≥ 1000000000 then subsStr n 1000000000 "B"
  else if n ≥ 1000000 then subsStr n 1000000 "M"
  else if n ≥ 1000 then subsStr n 1000 "K"
  else if n ≥ 1 then subsStr n 1 "B"
  else toString n ++ " subscribers"

/-! ## Claim theorems on the loader, mapper and controller -/

/-- A mid-download UI snapshot used as a concrete state. -/
def uiMid : UI :=
  { previewVisible := true, previewSkelVisible := false,
    progressSkelVisible := false, progressBlockVisible := true,
    resultBlockVisible := false, cancelBlockVisible := false,
    errBoxVisible := false, cancelBtnVisible := true, newBtnTopVisible := false,
    progADSkelVisible := false, progADWrapVisible := true,
    barWidth := 40, barText := "40%", statusBadge := "DOWNLOADING",
    downloadedText := "4.0 MB", totalText := "10.0 MB", speedText := "1.2 MB/s",
    etaText := "6s", startedAtText := "Started: 10:00", expiresAtText := "10:30",
    titleText := "A video", channelNameText := "A channel",
    channelSubsText := "1.5K subscribers",
    thumbSrc := some "https://i.ytimg.com/t.jpg", channelAvatarSrc := none,
    errmsgText := "", filenameText := "", downloadHref := none,
    resultExpiresText := "—",
    urlInputValue := "https://www.youtube.com/watch?v=abc123",
    barSkel := false, toasts := [] }

/-- A state with one live job (`job-1`) being polled by interval 0. -/
def midJobState : AppState :=
  { currentJobId := some "job-1",
    currentCleanUrl := some "https://www.youtube.com/watch?v=abc123",
    pollTimer := some 0, activeIntervals := [0], nextTimer := 1, ui := uiMid }

/-- C1: the claim fails on the code.  Beginning a new job while `job-1`
is active runs `clearForNew`/`resetUI`, which clears `currentJobId` but
contains no `clearInterval`: the superseded job's polling interval 0 is
still installed afterwards, and once the next job is started two
intervals are live while `pollTimer` references only the newer one, so
the stale interval can never be cleared again. -/
theorem C1_new_job_leaves_stale_timer :
    (clearForNew midJobState).currentJobId = none ∧
    (clearForNew midJobState).activeIntervals = [0] ∧
    (startJobSuccess (clearForNew midJobState) "job-2").activeIntervals = [1, 0] ∧
    (startJobSuccess (clearForNew midJobState) "job-2").pollTimer = some 1 :=
  ⟨rfl, rfl, rfl, rfl⟩

/-- C2: while the status is `processing`, a raw percent below 99 is
mapped to exactly 99, and a raw percent of at least 99 is mapped to the
raw value clamped into `[0,100]`. -/
theorem C2_processing_floor (p : ℚ) :
    (p < 99 → mapPct (some "processing") (some p) = 99) ∧
    (99 ≤ p → mapPct (some "processing") (some p) = max 0 (min 100 p)) := by
  constructor
  · intro h
    simp [mapPct, h]
    norm_num
  · intro h
    have h' : ¬ (p < 99) := not_lt.mpr h
    simp [mapPct, h']

/-- Witness for C2 at raw percents 40 and 150. -/
theorem C2_processing_floor_witness :
    mapPct (some "processing") (some 40) = 99 ∧
    mapPct (some "processing") (some 150) = max 0 (min 100 150) :=
  ⟨(C2_processing_floor 40).1 (by norm_num),
   (C2_processing_floor 150).2 (by norm_num)⟩

/-- C3: if `need` is zero at the moment `arm()` runs, the preview is
revealed immediately; `arm()` always schedules the hard timeout; and the
timeout firing reveals the preview whatever the counters hold — in
particular when no registered image ever completes. -/
theorem C3_arm_reveals_and_schedules (s : LoaderState) :
    (s.need = 0 →
      (loaderArm s).previewVisible = true ∧
      (loaderArm s).previewSkelVisible = false) ∧
    (loaderArm s).timeoutScheduled = true ∧
    ((loaderTimeout (loaderArm s)).previewVisible = true ∧
     (loaderTimeout (loaderArm s)).previewSkelVisible = false) := by
  by_cases hn : s.need = 0 <;> simp [loaderArm, loaderTimeout, hn]

/-- Witness for C3 at a freshly reset loader (no images registered) and
at a loader with two pending images. -/
theorem C3_arm_reveals_and_schedules_witness :
    ((loaderArm (loaderReset
        ⟨0, 0, false, false, false, true⟩)).previewVisible = true ∧
     (loaderArm (loaderReset
        ⟨0, 0, false, false, false, true⟩)).previewSkelVisible = false) ∧
    (loaderTimeout (loaderArm ⟨2, 0, false, false, false, true⟩)).previewVisible
        = true :=
  ⟨(C3_arm_reveals_and_schedules _).1 rfl,
   ((C3_arm_reveals_and_schedules ⟨2, 0, false, false, false, true⟩).2.2).1⟩

/-- C5: any backend percent outside `[0,100]` is clamped into `[0,100]`
by the progress mapping, whatever the status. -/
theorem C5_percent_clamped (st : Option String) (p : ℚ)
    (h : p < 0 ∨ 100 < p) :
    0 ≤ mapPct st (some p) ∧ mapPct st (some p) ≤ 100 := by
  have e : mapPct st (some p)
      = max 0 (min 100 (if st.getD "" = "processing" ∧ p < 99 then (99:ℚ) else p)) := rfl
  rw [e]
  exact ⟨le_max_left _ _, max_le (by norm_num) (min_le_left _ _)⟩

/-- Witness for C5 at percents -5 and 150. -/
theorem C5_percent_clamped_witness :
    (0 ≤ mapPct (some "downloading") (some (-5)) ∧
      mapPct (some "downloading") (some (-5)) ≤ 100) ∧
    (0 ≤ mapPct (some "downloading") (some 150) ∧
      mapPct (some "downloading") (some 150) ≤ 100) :=
  ⟨C5_percent_clamped (some "downloading") (-5) (Or.inl (by norm_num)),
   C5_percent_clamped (some "downloading") 150 (Or.inr (by norm_num))⟩

/-- An entirely empty progress payload. -/
def emptyPayload : ProgressPayload :=
  { ok := true, status := none, progress := none, downloaded := none,
    total := none, speed := none, eta := none, error := none,
    startedAtIst := none, expiresAtIst := none, filename := none,
    downloadUrl := none }

/-- C6 counterexample: the contract types `eta` as a number, and the
code appends `s` with no rounding, so the backend value `5/2` renders as
`"2.5s"` — a fractional-seconds suffix (it contains a decimal point),
not a whole number of seconds. -/
theorem C6_eta_fractional_counterexample :
    (updateProgress { emptyPayload with eta := some (mkRat 5 2) } uiMid).etaText
        = "2.5s" ∧
    ((mkRat 5 2).den ≠ 1) ∧ '.' ∈ ("2.5s" : String).data := by
  refine ⟨by decide, by decide, by decide⟩

/-- C6 (amended): the progress mapping defaults a missing `downloaded`
to `0 B`, a missing `total` to `?`, a missing `speed` to `-`, and an
absent ETA to `-`; a present ETA is rendered verbatim as `<eta>s` with
no rounding, so the suffix is a whole number of seconds precisely when
the backend supplies an integral eta, in which case the text is that
integer followed by `s`. -/
theorem C6_placeholders_and_eta (d : ProgressPayload) (u : UI) :
    (d.downloaded = none → (updateProgress d u).downloadedText = "0 B") ∧
    (d.total = none → (updateProgress d u).totalText = "?") ∧
    (d.speed = none → (updateProgress d u).speedText = "-") ∧
    (d.eta = none → (updateProgress d u).etaText = "-") ∧
    (∀ e : ℚ, d.eta = some e →
      (updateProgress d u).etaText = jsNumToString e ++ "s") ∧
    (∀ e : ℚ, d.eta = some e → e.den = 1 →
      (updateProgress d u).etaText = toString e.num ++ "s") := by
  refine ⟨?_, ?_, ?_, ?_, ?_, ?_⟩
  · intro h; simp [updateProgress, jsOr, h]
  · intro h; simp [updateProgress, jsOr, h]
  · intro h; simp [updateProgress, jsOr, h]
  · intro h; simp [updateProgress, jsOr, h]
  · intro e he; simp [updateProgress, jsOr, he]
  · intro e he hden; simp [updateProgress, jsOr, he, jsNumToString, hden]

/-- Witness for C6 at an empty payload and at a payload with the
integral `eta = 12`. -/
theorem C6_placeholders_and_eta_witness :
    (updateProgress emptyPayload uiMid).downloadedText = "0 B" ∧
    (updateProgress emptyPayload uiMid).totalText = "?" ∧
    (updateProgress emptyPayload uiMid).speedText = "-" ∧
    (updateProgress emptyPayload uiMid).etaText = "-" ∧
    (updateProgress { emptyPayload with eta := some (mkRat 12 1) } uiMid).etaText
        = "12s" :=
  ⟨(C6_placeholders_and_eta emptyPayload uiMid).1 rfl,
   (C6_placeholders_and_eta emptyPayload uiMid).2.1 rfl,
   (C6_placeholders_and_eta emptyPayload uiMid).2.2.1 rfl,
   (C6_placeholders_and_eta emptyPayload uiMid).2.2.2.1 rfl,
   (C6_placeholders_and_eta { emptyPayload with eta := some (mkRat 12 1) } uiMid).2.2.2.2.2
     (mkRat 12 1) rfl rfl⟩

/-- C9: the cancel handler never mutates the job state.  Whatever the
outcome of the cancel request (acknowledged, refused, or failed in
transport), the job id, the retained clean URL, the `pollTimer`
variable, the installed intervals, and every UI region except the toast
stack are unchanged. -/
theorem C9_cancel_is_frame (s : AppState) (resp : Option CancelResponse) :
    (cancelClick s resp).currentJobId = s.currentJobId ∧
    (cancelClick s resp).currentCleanUrl = s.currentCleanUrl ∧
    (cancelClick s resp).pollTimer = s.pollTimer ∧
    (cancelClick s resp).activeIntervals = s.activeIntervals ∧
    (cancelClick s resp).ui = { s.ui with toasts := (cancelClick s resp).ui.toasts } := by
  cases hc : s.currentJobId <;> simp [cancelClick, hc]

/-- A poll outcome the claim calls terminal: a transport/parse failure,
an `ok:false` payload (thrown and caught identically), or a payload
reporting `finished`, `expired`, `cancelled` or `error`. -/
def isTerminalPoll (r : PollResult) : Prop :=
  match r with
  | PollResult.failure _ => True
  | PollResult.response d =>
      d.ok = false ∨ d.status = some "finished" ∨ d.status = some "expired"
        ∨ d.status = some "cancelled" ∨ d.status = some "error"

/-- C4: a poll invocation on an active job whose outcome is terminal
(or whose fetch failed) clears the interval that drives the loop — with
one live interval recorded in `pollTimer`, no interval remains installed
afterwards — and a transport/parse failure additionally swaps the cancel
button for the new-job button instead of being retried. -/
theorem C4_terminal_poll_stops_loop (s : AppState) (r : PollResult)
    (t : Nat) (j : String)
    (h1 : s.currentJobId = some j) (h2 : s.pollTimer = some t)
    (h3 : s.activeIntervals = [t]) (h4 : isTerminalPoll r) :
    (poll s r).activeIntervals = [] ∧
    (∀ msg, r = PollResult.failure msg →
      (poll s r).ui.cancelBtnVisible = false ∧
      (poll s r).ui.newBtnTopVisible = true) := by
  rcases r with msg | d
  · constructor
    · simp [poll, h1, pollCatch, clearPollInterval, h2, h3]
    · intro msg' he
      simp [poll, h1, pollCatch, clearPollInterval, h2, h3]
  · refine ⟨?_, ?_⟩
    swap
    · intro msg' he
      cases he
    rcases h4 with hok | hst | hst | hst | hst
    · simp [poll, h1, hok, pollCatch, clearPollInterval, h2, h3]
    all_goals
      simp [poll, h1, hst, pollCatch, clearPollInterval, h2, h3, updateProgress]
    all_goals
      try
        split
        all_goals simp [clearPollInterval, h2, h3]

/-- Witness for C4 at a concrete cancelled-status payload on the live
mid-job state. -/
theorem C4_terminal_poll_stops_loop_witness :
    (poll midJobState
      (PollResult.response { emptyPayload with status := some "cancelled" })).activeIntervals
        = [] :=
  (C4_terminal_poll_stops_loop midJobState
    (PollResult.response { emptyPayload with status := some "cancelled" })
    0 "job-1" rfl rfl rfl (Or.inr (Or.inr (Or.inr (Or.inl rfl))))).1

theorem stripDotZero_append (s : String) : stripDotZero (s ++ ".0") = s := by
  have hd : (s ++ ".0").data = s.data ++ ['.', '0'] := by
    simp [String.data_append]
  unfold stripDotZero
  rw [hd]
  have hlen : (s.data ++ ['.', '0']).length = s.data.length + 2 := by simp
  rw [hlen]
  have h2 : s.data.length + 2 - 2 = s.data.length := by omega
  rw [h2, List.drop_left, List.take_left]
  simp

/-- C10: for every integer subscriber count `n` with `1 ≤ n < 1000`, the
formatter hits the base unit of the units array, whose symbol is the
letter `B` (the same letter as the billions unit), formats `n/1` with one
decimal, strips the `.0`, and so returns `"<n>B subscribers"`. -/
theorem C10_small_counts_use_B (n : Nat) (h1 : 1 ≤ n) (h2 : n < 1000) :
    formatSubs n = toString n ++ "B subscribers" := by
  have hb9 : ¬ n ≥ 1000000000 := by omega
  have hb6 : ¬ n ≥ 1000000 := by omega
  have hb3 : ¬ n ≥ 1000 := by omega
  have hb5 : ¬ n ≥ 100000 := by omega
  have hfloor : (⌊(n:ℚ) * 10 + 1/2⌋ : ℤ) = 10 * n := by
    rw [show ((n:ℚ) * 10 + 1/2 : ℚ) = ((10 * n : ℤ) : ℚ) + 1/2 by push_cast; ring]
    rw [Int.floor_int_add]
    norm_num
  have hdiv : ((10 * (n:ℤ)) / 10 : ℤ) = n := Int.mul_ediv_cancel_left n (by norm_num)
  have hmod : ((10 * (n:ℤ)) % 10 : ℤ) = 0 := Int.mul_emod_right 10 n
  have hfix : jsToFixed1 ((n:ℚ)) = toString n ++ ".0" := by
    unfold jsToFixed1
    rw [hfloor, hdiv, hmod]
    show toString n ++ "." ++ "0" = toString n ++ ".0"
    apply String.ext
    simp [String.data_append]
  have hstrip : stripDotZero (jsToFixed1 ((n:ℚ))) = toString n := by
    rw [hfix]
    exact stripDotZero_append _
  simp only [formatSubs, hb9, hb6, hb3, h1, subsStr, hb5, if_false, if_true,
    ite_false, ite_true]
  simp [hb9, hb6, hb3, hb5, h1, hstrip]
  try
    apply String.ext
    simp [String.data_append]

/-- Witness for C10 at the count 5. -/
theorem C10_small_counts_use_B_witness : formatSubs 5 = "5B subscribers" := by
  have h := C10_small_counts_use_B 5 (by norm_num) (by norm_num)
  simpa using h

end App
